import Mathlib

/-!
Verification of the memo document store (`src/crud.py`).

The Python module is a single-file document store: every public operation
loads the whole collection from a JSON file, works on the in-memory list of
memo dictionaries, and (for mutations) writes the whole list back.  We embed
the collection as a `List Memo` and every operation as a pure function from
the loaded collection (plus the effectful inputs: the generated id and the
clock reading) to its result together with the collection that gets saved.
Raising `ValueError` is embedded as `Except.error`; returning `None` for a
missing id is `Option.none`, so validation failures and not-found stay
distinguishable, exactly as in the source.
-/

namespace MemoServer

/-- A memo record, one element of the JSON array in `memos.json`.  Fields are
exactly the keys written by `create_memo`.  `emotion` and `context` are
nullable in the source (`None` / JSON null), hence `Option String`;
`importance` is a Python `int`, hence `Int`; timestamps and ids are plain
strings. -/
structure Memo where
  id : String
  content : String
  tags : List String
  created_at : String
  updated_at : String
  importance : Int
  emotion : Option String
  related_to : List String
  context : Option String
deriving Repr, DecidableEq

/-- The two `ValueError` branches of `_validate_memo_data`, kept distinct. -/
inductive ValidationError where
  | emptyContent
  | invalidImportance
deriving Repr, DecidableEq

/-- Python `str.strip()` on the character list: drop leading and trailing
whitespace. -/
def stripChars (cs : List Char) : List Char :=
  (((cs.dropWhile Char.isWhitespace).reverse).dropWhile Char.isWhitespace).reverse

/-- Python `str.strip()`: the string without its surrounding whitespace. -/
def pyStrip (s : String) : String := ⟨stripChars s.data⟩

/-- Models `_validate_memo_data` (crud.py lines 67-82): rejects content that
is empty or whitespace-only (`not content or not content.strip()` both reduce
to a blank strip), then rejects importance outside the inclusive range 1..5.
The `isinstance(importance, int)` test is carried by the `Int` type of the
embedding. -/
def validateMemoData (content : String) (importance : Int) : Except ValidationError Unit :=
  if pyStrip content = "" then .error .emptyContent
  else if importance < 1 ∨ 5 < importance then .error .invalidImportance
  else .ok ()

/-- Hex digit character used by the uuid rendering: 0-9 then a-f. -/
def hexChar (n : Nat) : Char :=
  if n < 10 then Char.ofNat (48 + n) else Char.ofNat (87 + n)

/-- Fixed-width lowercase hex rendering of a natural number, most significant
nibble first, as produced by a width-w slice of Python format %032x. -/
def toHex : Nat → Nat → List Char
  | 0, _ => []
  | w + 1, n => toHex w (n / 16) ++ [hexChar (n % 16)]

/-- Models `_generate_id` (crud.py lines 49-56), i.e. `str(uuid.uuid4())`:
the canonical 8-4-4-4-12 hyphenated lowercase-hex rendering of the 128-bit
uuid value.  `r` stands for that 128-bit integer (uuid4 draws it at random
and forces the version and variant bits; the rendering is total in it). -/
def generateId (r : Nat) : String :=
  ⟨toHex 8 (r / 2 ^ 96) ++ '-' ::
    (toHex 4 (r / 2 ^ 80 % 2 ^ 16) ++ '-' ::
      (toHex 4 (r / 2 ^ 64 % 2 ^ 16) ++ '-' ::
        (toHex 4 (r / 2 ^ 48 % 2 ^ 16) ++ '-' :: toHex 12 (r % 2 ^ 48))))⟩

/-- Models `create_memo` (crud.py lines 84-127).  `r` is the random value
consumed by `_generate_id`; `now1` and `now2` are the readings returned by
the two separate `_get_current_timestamp()` calls in the record literal
(crud.py lines 115 and 116), the first stored in `created_at` and the second
in `updated_at` — the running program reads the clock twice, so the two
fields need not coincide.  The loaded collection is `memos`.  On success the
result pairs the new record with the collection that `_save_memos` writes
(the old list with the record appended); a `ValueError` from validation is
`Except.error`, raised before the list is touched. -/
def createMemo (r : Nat) (now1 now2 : String) (content : String) (tags : Option (List String))
    (importance : Int) (emotion : Option String) (context : Option String)
    (related_to : Option (List String)) (memos : List Memo) :
    Except ValidationError (Memo × List Memo) :=
  match validateMemoData content importance with
  | .error e => .error e
  | .ok _ =>
    let memo : Memo :=
      { id := generateId r
        content := pyStrip content
        tags := tags.getD []
        created_at := now1
        updated_at := now2
        importance := importance
        emotion := emotion
        related_to := related_to.getD []
        context := context }
    .ok (memo, memos ++ [memo])

/-- Models `get_memo_by_id` (crud.py lines 138-152): linear scan, first
matching id wins, `None` when absent. -/
def getMemoById (memo_id : String) : List Memo → Option Memo
  | [] => none
  | m :: rest => if m.id = memo_id then some m else getMemoById memo_id rest

/-- The field-assignment block of `update_memo` (crud.py lines 190-205): each
argument that was supplied (not `None`) overwrites the stored field, content
being stripped on the way in; unsupplied arguments leave the field alone;
`updated_at` is then set to the current timestamp. -/
def applyMemoUpdate (now : String) (content : Option String) (tags : Option (List String))
    (importance : Option Int) (emotion : Option String) (context : Option String)
    (related_to : Option (List String)) (m : Memo) : Memo :=
  { m with
    content := match content with | some c => pyStrip c | none => m.content
    tags := tags.getD m.tags
    importance := importance.getD m.importance
    emotion := match emotion with | some e => some e | none => m.emotion
    context := match context with | some c => some c | none => m.context
    related_to := related_to.getD m.related_to
    updated_at := now }

/-- Models `update_memo` (crud.py lines 154-211).  The loop walks the loaded
list; at the first record whose id matches it validates the effective pair
(`content if content is not None else memo["content"]`, likewise for
the importance field), raising `ValueError` (`Except.error`) before any field is
written, otherwise rewrites the record in place, saves and returns it.
`Except.ok none` is the fall-through `return None` for an unknown id. -/
def updateMemo (now memo_id : String) (content : Option String) (tags : Option (List String))
    (importance : Option Int) (emotion : Option String) (context : Option String)
    (related_to : Option (List String)) :
    List Memo → Except ValidationError (Option (Memo × List Memo))
  | [] => .ok none
  | m :: rest =>
    if m.id = memo_id then
      match validateMemoData (content.getD m.content) (importance.getD m.importance) with
      | .error e => .error e
      | .ok _ =>
        let m' := applyMemoUpdate now content tags importance emotion context related_to m
        .ok (some (m', m' :: rest))
    else
      match updateMemo now memo_id content tags importance emotion context related_to rest with
      | .error e => .error e
      | .ok none => .ok none
      | .ok (some (m', rest')) => .ok (some (m', m :: rest'))

/-- Models Python `list.remove(y)` on a list of strings: drops the first
occurrence of `y` only (later duplicates stay). -/
def removeFirst (y : String) : List String → List String
  | [] => []
  | x :: xs => if x = y then xs else x :: removeFirst y xs

/-- The per-record body of `_remove_related_references` (crud.py lines
237-248): when `deleted_id` occurs in the related_to list of the record, the
first occurrence is removed (`list.remove`) and `updated_at` refreshed;
otherwise the record is untouched. -/
def stripRef (now deleted_id : String) (m : Memo) : Memo :=
  if deleted_id ∈ m.related_to then
    { m with related_to := removeFirst deleted_id m.related_to, updated_at := now }
  else m

/-- Models `_remove_related_references` (crud.py lines 237-248): the loop
applies `stripRef` to every record of the list, the one about to be deleted
included (it is discarded right after). -/
def removeRelatedReferences (now deleted_id : String) (memos : List Memo) : List Memo :=
  memos.map (stripRef now deleted_id)

/-- The index search of the `delete_memo` loop: position of the first record
with the given id, `none` when absent. -/
def findMemoIdx (memo_id : String) : List Memo → Option Nat
  | [] => none
  | m :: rest => if m.id = memo_id then some 0 else (findMemoIdx memo_id rest).map (· + 1)

/-- Models `delete_memo` (crud.py lines 213-235).  The loop fixes the index
`i` of the first matching record, then `_remove_related_references` rewrites
the whole in-memory list, `del memos[i]` drops the target at its original
position, and the result is saved with `True` returned.  When no record
matches, the loop falls through: `False` and the collection is not rewritten. -/
def deleteMemo (now memo_id : String) (memos : List Memo) : Bool × List Memo :=
  match findMemoIdx memo_id memos with
  | none => (false, memos)
  | some i => (true, (removeRelatedReferences now memo_id memos).eraseIdx i)

/-- Python `str.lower()`: character-wise lowercasing. -/
def strLower (s : String) : String := ⟨s.data.map Char.toLower⟩

/-- Python substring test `needle in hay`, on the character lists. -/
def strContains (hay needle : String) : Bool := decide (needle.data <:+: hay.data)

/-- The match test of the `search_memos` loop (crud.py lines 268-287) for one
record against the already stripped-and-lowercased query: substring of the
lowercased content, else of any lowercased tag, else of the lowercased
context or emotion when that field is present and non-empty (the Python
truthiness guard `memo.get("context")`). -/
def memoMatches (query_lower : String) (m : Memo) : Bool :=
  strContains (strLower m.content) query_lower ||
  m.tags.any (fun t => strContains (strLower t) query_lower) ||
  (match m.context with
   | some c => decide (c ≠ "") && strContains (strLower c) query_lower
   | none => false) ||
  (match m.emotion with
   | some e => decide (e ≠ "") && strContains (strLower e) query_lower
   | none => false)

/-- The importance comparison used by the sorts: `a` may precede `b` when
the importance of `b` is no larger. -/
def impGE (a b : Memo) : Prop := b.importance ≤ a.importance

instance : DecidableRel impGE := fun _ _ => inferInstanceAs (Decidable (_ ≤ _))

instance : IsTotal Memo impGE := ⟨fun a b => Int.le_total b.importance a.importance⟩

instance : IsTrans Memo impGE := ⟨fun _ _ _ hab hbc => le_trans hbc hab⟩

/-- Models `matching_memos.sort(key=lambda x: x.get("importance", 1),
reverse=True)` (crud.py line 290): Python list.sort is stable, and with
`reverse=True` it keeps the original relative order of records of equal
rank while ordering importance descending; a stable insertion sort on
the descending comparison computes exactly that list. -/
def sortByImportanceDesc (l : List Memo) : List Memo := l.insertionSort impGE

/-- Python slice `l[:n]` for an arbitrary integer `n`: a nonnegative `n`
keeps the first `n` elements, a negative `n` counts from the end, dropping
the last `-n`. -/
def pySliceTo (n : Int) (l : List Memo) : List Memo :=
  l.take (if 0 ≤ n then n.toNat else ((l.length : Int) + n).toNat)

/-- Models `search_memos` (crud.py lines 250-296).  Blank queries return
immediately; otherwise the loop collects each record matching the stripped,
lowercased query once, the result is sorted by importance descending
(stable), and `if limit:` truncates by Python slicing only when `limit` is
supplied (not `None`) and nonzero (truthy). -/
def searchMemos (query : String) (limit : Option Int) (memos : List Memo) : List Memo :=
  if pyStrip query = "" then []
  else
    let query_lower := strLower (pyStrip query)
    let sorted := sortByImportanceDesc (memos.filter (memoMatches query_lower))
    match limit with
    | none => sorted
    | some n => if n = 0 then sorted else pySliceTo n sorted

/-- Models `get_memos_by_tags` (crud.py lines 298-321): empty tag list short
circuits to an empty result; otherwise each record whose tag list meets the
given list (`any(tag in memo_tags for tag in tags)`) is kept and the matches
are sorted by importance descending. -/
def getMemosByTags (tags : List String) (memos : List Memo) : List Memo :=
  if tags.isEmpty then []
  else sortByImportanceDesc (memos.filter (fun m => tags.any (fun t => m.tags.contains t)))

/-- Stable insertion sort on the string order, computing Python
`sorted(...)` over the distinct elements fed to it. -/
def insertStr (s : String) : List String → List String
  | [] => [s]
  | y :: ys => if s ≤ y then s :: y :: ys else y :: insertStr s ys

/-- Python `sorted(list(set(xs)))`: the distinct elements in ascending
string order. -/
def distinctSorted (xs : List String) : List String :=
  (xs.dedup).foldr insertStr []

/-- The result dictionary of `get_memo_stats`.  `unique_tags` is an `Option`
because the empty-collection branch of the source returns a dictionary
without that key, while the non-empty branch includes it. -/
structure MemoStats where
  total_count : Nat
  tags_count : Nat
  unique_tags : Option (List String)
  contexts : List String
  emotions : List String
  importance_distribution : List (Int × Nat)
deriving Repr, DecidableEq

/-- Models `get_memo_stats` (crud.py lines 323-362).  The empty collection
takes the early-return branch: zero counts, empty context/emotion lists, an
empty histogram dictionary, and no `unique_tags` key at all.  Otherwise tags,
truthy contexts and truthy emotions are collected into sets and sorted, and
the histogram counts each importance key 1..5 (the source increments
`importance_dist[memo.get("importance", 1)]`, which for the in-range values
kept by validation is the per-key occurrence count). -/
def getMemoStats (memos : List Memo) : MemoStats :=
  if memos.isEmpty then
    { total_count := 0
      tags_count := 0
      unique_tags := none
      contexts := []
      emotions := []
      importance_distribution := [] }
  else
    let all_tags := (memos.foldl (fun acc m => acc ++ m.tags) []).dedup
    let contexts := (memos.filterMap (fun m =>
      match m.context with
      | some c => if c ≠ "" then some c else none
      | none => none)).dedup
    let emotions := (memos.filterMap (fun m =>
      match m.emotion with
      | some e => if e ≠ "" then some e else none
      | none => none)).dedup
    { total_count := memos.length
      tags_count := all_tags.length
      unique_tags := some (distinctSorted all_tags)
      contexts := distinctSorted contexts
      emotions := distinctSorted emotions
      importance_distribution :=
        [1, 2, 3, 4, 5].map (fun k =>
          (k, (memos.filter (fun m => m.importance = k)).length)) }

/-- The exception classes a read-and-parse of the backing file can raise
inside the try block of `_load_memos`: the two classes named in its except
clause, and `UnicodeDecodeError`, which `json.load` raises when the existing
file content is not valid UTF-8 and which the except clause does not name. -/
inductive LoadError where
  | jsonDecodeError
  | fileNotFoundError
  | unicodeDecodeError
deriving Repr, DecidableEq

/-- Models `_load_memos` (crud.py lines 24-37).  The body is a try/except
around `json.load`; `raw` is the outcome of that read-and-parse (after
`_ensure_memos_file` has bootstrapped a missing file): a parsed collection,
or the exception it raised.  The clause `except (json.JSONDecodeError,
FileNotFoundError)` collapses exactly those two classes to the empty
collection; any other exception — `UnicodeDecodeError` from non-UTF-8
content — propagates to the caller. -/
def loadMemos (raw : Except LoadError (List Memo)) : Except LoadError (List Memo) :=
  match raw with
  | .ok memos => .ok memos
  | .error .jsonDecodeError => .ok []
  | .error .fileNotFoundError => .ok []
  | .error .unicodeDecodeError => .error .unicodeDecodeError

/-! Concrete records used to instantiate the theorems below. -/

/-- Sample record with a single reference to the record with id b. -/
def memoA1 : Memo :=
  { id := "a", content := "alpha", tags := [], created_at := "t0", updated_at := "t0",
    importance := 2, emotion := none, related_to := ["b"], context := none }

/-- Sample record whose related_to lists the id b twice. -/
def memoA2 : Memo :=
  { id := "a", content := "alpha", tags := [], created_at := "t0", updated_at := "t0",
    importance := 2, emotion := none, related_to := ["b", "b"], context := none }

/-- Sample record with id b, the target of the delete examples. -/
def memoB : Memo :=
  { id := "b", content := "beta", tags := [], created_at := "t0", updated_at := "t0",
    importance := 1, emotion := none, related_to := [], context := none }

/-- Sample record whose content contains the search query abc. -/
def memoAbc : Memo :=
  { id := "c", content := "abc here", tags := [], created_at := "t0", updated_at := "t0",
    importance := 3, emotion := none, related_to := [], context := none }

/-- Sample matching record of importance 5. -/
def memoImp5 : Memo :=
  { id := "s5", content := "abc five", tags := [], created_at := "t0", updated_at := "t0",
    importance := 5, emotion := none, related_to := [], context := none }

/-- Sample matching record of importance 3, first of two. -/
def memoImp3a : Memo :=
  { id := "s3a", content := "abc threeA", tags := [], created_at := "t0", updated_at := "t0",
    importance := 3, emotion := none, related_to := [], context := none }

/-- Sample matching record of importance 3, second of two. -/
def memoImp3b : Memo :=
  { id := "s3b", content := "abc threeB", tags := [], created_at := "t0", updated_at := "t0",
    importance := 3, emotion := none, related_to := [], context := none }

/-- Sample record with content X and importance 1, as in the sparse-update
example of the specification. -/
def memoX1 : Memo :=
  { id := "x1", content := "X", tags := [], created_at := "t0", updated_at := "t0",
    importance := 1, emotion := none, related_to := [], context := none }

/-- Sample record with every optional field set. -/
def memoEmo : Memo :=
  { id := "e1", content := "feel", tags := ["t"], created_at := "t0", updated_at := "t0",
    importance := 2, emotion := some "joy", related_to := ["z"], context := some "here" }

/-- Sample record carrying the tag x among others. -/
def memoTagX : Memo :=
  { id := "tx", content := "tagged", tags := ["x", "y"], created_at := "t0", updated_at := "t0",
    importance := 2, emotion := none, related_to := [], context := none }

/-! Helper lemmas shared by the claim theorems. -/

theorem validateMemoData_ok_iff (content : String) (importance : Int) :
    validateMemoData content importance = .ok () ↔
      pyStrip content ≠ "" ∧ 1 ≤ importance ∧ importance ≤ 5 := by
  unfold validateMemoData
  by_cases hc : pyStrip content = ""
  · simp [hc]
  · by_cases hi : importance < 1 ∨ 5 < importance
    · rw [if_neg hc, if_pos hi]
      constructor
      · intro h; simp at h
      · rintro ⟨-, h1, h5⟩; omega
    · rw [if_neg hc, if_neg hi]
      constructor
      · intro _; exact ⟨hc, by omega, by omega⟩
      · intro _; rfl

theorem validateMemoData_invalid (content : String) (importance : Int)
    (h : pyStrip content = "" ∨ importance < 1 ∨ 5 < importance) :
    ∃ e, validateMemoData content importance = .error e := by
  by_cases hc : pyStrip content = ""
  · exact ⟨.emptyContent, by unfold validateMemoData; rw [if_pos hc]⟩
  · have hi : importance < 1 ∨ 5 < importance := by
      rcases h with h | h
      · exact absurd h hc
      · exact h
    exact ⟨.invalidImportance, by unfold validateMemoData; rw [if_neg hc, if_pos hi]⟩

/-- Master lemma for the update path: at a stored id, `update_memo` validates
the effective pair and on success rewrites exactly the first matching record
with `applyMemoUpdate`. -/
theorem updateMemo_found (now memo_id : String) (uc : Option String) (ut : Option (List String))
    (ui : Option Int) (ue ux : Option String) (ur : Option (List String)) :
    ∀ (st : List Memo) (m : Memo), getMemoById memo_id st = some m →
      ∃ st2, updateMemo now memo_id uc ut ui ue ux ur st =
        (validateMemoData (uc.getD m.content) (ui.getD m.importance)).map
          (fun _ => some (applyMemoUpdate now uc ut ui ue ux ur m, st2))
  | [], m, h => by simp [getMemoById] at h
  | m0 :: rest, m, h => by
    by_cases h0 : m0.id = memo_id
    · rw [getMemoById, if_pos h0] at h
      injection h with h
      subst h
      refine ⟨applyMemoUpdate now uc ut ui ue ux ur m0 :: rest, ?_⟩
      rw [updateMemo, if_pos h0]
      cases hv : validateMemoData (uc.getD m0.content) (ui.getD m0.importance) with
      | error er => rfl
      | ok u => rfl
    · rw [getMemoById, if_neg h0] at h
      obtain ⟨st2, hst2⟩ := updateMemo_found now memo_id uc ut ui ue ux ur rest m h
      refine ⟨m0 :: st2, ?_⟩
      rw [updateMemo, if_neg h0, hst2]
      cases hv : validateMemoData (uc.getD m.content) (ui.getD m.importance) with
      | error er => rfl
      | ok u => rfl

/-- On success the returned record is the `applyMemoUpdate` rewrite of the
stored one. -/
theorem updateMemo_ok_eq (now memo_id : String) (uc : Option String) (ut : Option (List String))
    (ui : Option Int) (ue ux : Option String) (ur : Option (List String))
    (st st2 : List Memo) (m m' : Memo) (h : getMemoById memo_id st = some m)
    (h2 : updateMemo now memo_id uc ut ui ue ux ur st = .ok (some (m', st2))) :
    m' = applyMemoUpdate now uc ut ui ue ux ur m ∧
      validateMemoData (uc.getD m.content) (ui.getD m.importance) = .ok () := by
  obtain ⟨st3, hst3⟩ := updateMemo_found now memo_id uc ut ui ue ux ur st m h
  cases hv : validateMemoData (uc.getD m.content) (ui.getD m.importance) with
  | error er => rw [hst3, hv] at h2; simp [Except.map] at h2
  | ok u =>
    cases u
    rw [hst3, hv] at h2
    simp [Except.map] at h2
    exact ⟨h2.1.symm, rfl⟩

/-- When the effective pair validates, the update succeeds and returns the
rewritten record. -/
theorem updateMemo_ok_of_valid (now memo_id : String) (uc : Option String)
    (ut : Option (List String)) (ui : Option Int) (ue ux : Option String)
    (ur : Option (List String)) (st : List Memo) (m : Memo)
    (h : getMemoById memo_id st = some m)
    (hok : validateMemoData (uc.getD m.content) (ui.getD m.importance) = .ok ()) :
    ∃ st2, updateMemo now memo_id uc ut ui ue ux ur st =
      .ok (some (applyMemoUpdate now uc ut ui ue ux ur m, st2)) := by
  obtain ⟨st2, hst2⟩ := updateMemo_found now memo_id uc ut ui ue ux ur st m h
  exact ⟨st2, by rw [hst2, hok]; rfl⟩

theorem toHex_length : ∀ w n, (toHex w n).length = w
  | 0, _ => rfl
  | w + 1, n => by simp [toHex, toHex_length w]

theorem generateId_ne_empty (r : Nat) : generateId r ≠ "" := by
  intro hcon
  have hdata : (generateId r).data = [] := by rw [hcon]
  unfold generateId at hdata
  simp at hdata

theorem getMemoById_append_of_fresh (nid : String) (memo : Memo) (hmid : memo.id = nid) :
    ∀ st : List Memo, (∀ m ∈ st, m.id ≠ nid) → getMemoById nid (st ++ [memo]) = some memo
  | [], _ => by simp [getMemoById, hmid]
  | m0 :: rest, hf => by
    rw [List.cons_append, getMemoById, if_neg (hf m0 (by simp))]
    exact getMemoById_append_of_fresh nid memo hmid rest (fun m hm => hf m (by simp [hm]))

/-- C2: a create or update call whose (effective) content is blank after
trimming, or whose (effective) importance lies outside 1..5, fails with a
ValidationError; the error is a distinct outcome from the not-found result,
and no new collection is produced for saving, so the stored collection is
untouched. -/
theorem validation_error_before_mutation
    (r : Nat) (now1 now2 now content : String) (tags : Option (List String)) (importance : Int)
    (emotion context : Option String) (related_to : Option (List String)) (st : List Memo)
    (memo_id : String) (uc : Option String) (ut : Option (List String)) (ui : Option Int)
    (ue ux : Option String) (ur : Option (List String)) (m : Memo) :
    (pyStrip content = "" ∨ importance < 1 ∨ 5 < importance →
      ∃ e, createMemo r now1 now2 content tags importance emotion context related_to st =
        .error e) ∧
    (getMemoById memo_id st = some m →
      pyStrip (uc.getD m.content) = "" ∨ ui.getD m.importance < 1 ∨ 5 < ui.getD m.importance →
      ∃ e, updateMemo now memo_id uc ut ui ue ux ur st = .error e ∧
        updateMemo now memo_id uc ut ui ue ux ur st ≠ .ok none ∧
        ∀ p, updateMemo now memo_id uc ut ui ue ux ur st ≠ .ok (some p)) := by
  constructor
  · intro hbad
    obtain ⟨e, he⟩ := validateMemoData_invalid content importance hbad
    exact ⟨e, by unfold createMemo; rw [he]⟩
  · intro hm hbad
    obtain ⟨e, he⟩ := validateMemoData_invalid _ _ hbad
    obtain ⟨st2, hst2⟩ := updateMemo_found now memo_id uc ut ui ue ux ur st m hm
    rw [hst2, he]
    exact ⟨e, rfl, by simp [Except.map], fun p => by simp [Except.map]⟩

/-- Witness for C2 at concrete inputs: blank content on create, importance 9
on update of a stored record. -/
theorem validation_error_before_mutation_witness :
    (∃ e, createMemo 0 "t1" "t1b" "   " none 1 none none none [] = .error e) ∧
    (∃ e, updateMemo "t1" "c" none none (some 9) none none none [memoAbc] = .error e ∧
      updateMemo "t1" "c" none none (some 9) none none none [memoAbc] ≠ .ok none ∧
      ∀ p, updateMemo "t1" "c" none none (some 9) none none none [memoAbc] ≠ .ok (some p)) :=
  ⟨(validation_error_before_mutation 0 "t1" "t1b" "t1" "   " none 1 none none none [] "c" none
      none (some 9) none none none memoAbc).1 (Or.inl (by decide)),
    (validation_error_before_mutation 0 "t1" "t1b" "t1" "   " none 1 none none none [memoAbc]
      "c" none none (some 9) none none none memoAbc).2 (by decide)
      (Or.inr (Or.inr (by decide)))⟩

/-- C3: an update of a stored id validates the effective post-update pair,
each omitted field falling back to the stored value: a validation failure on
that pair is returned as the error of the call, and a successful call
certifies that the effective pair passed validation, so omission can never
smuggle in empty content or an out-of-range importance. -/
theorem update_validates_effective_pair
    (now memo_id : String) (uc : Option String) (ut : Option (List String)) (ui : Option Int)
    (ue ux : Option String) (ur : Option (List String)) (st : List Memo) (m : Memo)
    (h : getMemoById memo_id st = some m) :
    (∀ e, validateMemoData (uc.getD m.content) (ui.getD m.importance) = .error e →
      updateMemo now memo_id uc ut ui ue ux ur st = .error e) ∧
    (∀ m' st2, updateMemo now memo_id uc ut ui ue ux ur st = .ok (some (m', st2)) →
      validateMemoData (uc.getD m.content) (ui.getD m.importance) = .ok () ∧
      pyStrip (uc.getD m.content) ≠ "" ∧ 1 ≤ ui.getD m.importance ∧ ui.getD m.importance ≤ 5) := by
  obtain ⟨st3, hst3⟩ := updateMemo_found now memo_id uc ut ui ue ux ur st m h
  constructor
  · intro e he; rw [hst3, he]; rfl
  · intro m' st2 h2
    have hok := (updateMemo_ok_eq now memo_id uc ut ui ue ux ur st st2 m m' h h2).2
    obtain ⟨hc, h1, h5⟩ := (validateMemoData_ok_iff _ _).mp hok
    exact ⟨hok, hc, h1, h5⟩

/-- Witness for C3: updating the stored record with both fields omitted
validates the stored pair. -/
theorem update_validates_effective_pair_witness :
    validateMemoData ((none : Option String).getD memoAbc.content)
        ((none : Option Int).getD memoAbc.importance) = .ok () ∧
    pyStrip ((none : Option String).getD memoAbc.content) ≠ "" ∧
    1 ≤ (none : Option Int).getD memoAbc.importance ∧
    (none : Option Int).getD memoAbc.importance ≤ 5 :=
  (update_validates_effective_pair "t2" "c" none none none none none none [memoAbc] memoAbc
    (by decide)).2 { memoAbc with updated_at := "t2" } [{ memoAbc with updated_at := "t2" }] rfl

/-- C4: a successful update of a stored id is sparse: every supplied field
replaces the stored one (content stripped on the way in), every omitted
field keeps its stored value, updated_at is set to the current timestamp,
id and created_at are untouched, and the rewritten record is returned. -/
theorem update_sparse_fields
    (now memo_id : String) (uc : Option String) (ut : Option (List String)) (ui : Option Int)
    (ue ux : Option String) (ur : Option (List String)) (st : List Memo) (m : Memo)
    (h : getMemoById memo_id st = some m)
    (hok : validateMemoData (uc.getD m.content) (ui.getD m.importance) = .ok ()) :
    ∃ m' st2, updateMemo now memo_id uc ut ui ue ux ur st = .ok (some (m', st2)) ∧
      m'.id = m.id ∧ m'.created_at = m.created_at ∧ m'.updated_at = now ∧
      (uc = none → m'.content = m.content) ∧ (∀ c, uc = some c → m'.content = pyStrip c) ∧
      (ut = none → m'.tags = m.tags) ∧ (∀ ts, ut = some ts → m'.tags = ts) ∧
      (ui = none → m'.importance = m.importance) ∧ (∀ i, ui = some i → m'.importance = i) ∧
      (ue = none → m'.emotion = m.emotion) ∧ (∀ e, ue = some e → m'.emotion = some e) ∧
      (ux = none → m'.context = m.context) ∧ (∀ x, ux = some x → m'.context = some x) ∧
      (ur = none → m'.related_to = m.related_to) ∧
      (∀ rl, ur = some rl → m'.related_to = rl) := by
  obtain ⟨st2, hst2⟩ := updateMemo_ok_of_valid now memo_id uc ut ui ue ux ur st m h hok
  refine ⟨applyMemoUpdate now uc ut ui ue ux ur m, st2, hst2, rfl, rfl, rfl,
    fun h' => by subst h'; rfl, fun c hc => by subst hc; rfl,
    fun h' => by subst h'; rfl, fun ts hts => by subst hts; rfl,
    fun h' => by subst h'; rfl, fun i hi => by subst hi; rfl,
    fun h' => by subst h'; rfl, fun e he => by subst he; rfl,
    fun h' => by subst h'; rfl, fun x hx => by subst hx; rfl,
    fun h' => by subst h'; rfl, fun rl hr => by subst hr; rfl⟩

/-- Witness for C4 at the example of the specification: updating only
the importance of a record with content X and importance 1. -/
theorem update_sparse_fields_witness :
    ∃ m' st2, updateMemo "t2" "x1" none none (some 3) none none none [memoX1] =
        .ok (some (m', st2)) ∧
      m'.id = memoX1.id ∧ m'.created_at = memoX1.created_at ∧ m'.updated_at = "t2" ∧
      ((none : Option String) = none → m'.content = memoX1.content) ∧
      (∀ c, (none : Option String) = some c → m'.content = pyStrip c) ∧
      ((none : Option (List String)) = none → m'.tags = memoX1.tags) ∧
      (∀ ts, (none : Option (List String)) = some ts → m'.tags = ts) ∧
      ((some 3 : Option Int) = none → m'.importance = memoX1.importance) ∧
      (∀ i, (some 3 : Option Int) = some i → m'.importance = i) ∧
      ((none : Option String) = none → m'.emotion = memoX1.emotion) ∧
      (∀ e, (none : Option String) = some e → m'.emotion = some e) ∧
      ((none : Option String) = none → m'.context = memoX1.context) ∧
      (∀ x, (none : Option String) = some x → m'.context = some x) ∧
      ((none : Option (List String)) = none → m'.related_to = memoX1.related_to) ∧
      (∀ rl, (none : Option (List String)) = some rl → m'.related_to = rl) :=
  update_sparse_fields "t2" "x1" none none (some 3) none none none [memoX1] memoX1
    (by decide) rfl

/-- C10: through update, the argument sentinel for omitted coincides with the
stored marker for absent: with the optional emotion or context set on the
stored record, every successful update keeps it set (no argument value can
clear it), and each field whose argument is omitted keeps its stored value
exactly. -/
theorem update_cannot_clear_optional
    (now memo_id : String) (uc : Option String) (ut : Option (List String)) (ui : Option Int)
    (ue ux : Option String) (ur : Option (List String)) (st st2 : List Memo) (m m' : Memo)
    (h : getMemoById memo_id st = some m)
    (h2 : updateMemo now memo_id uc ut ui ue ux ur st = .ok (some (m', st2))) :
    (m.emotion.isSome → m'.emotion.isSome) ∧ (m.context.isSome → m'.context.isSome) ∧
    (ue = none → m'.emotion = m.emotion) ∧ (ux = none → m'.context = m.context) ∧
    (ut = none → m'.tags = m.tags) ∧ (ur = none → m'.related_to = m.related_to) ∧
    (uc = none → m'.content = m.content) ∧ (ui = none → m'.importance = m.importance) := by
  obtain ⟨hm', -⟩ := updateMemo_ok_eq now memo_id uc ut ui ue ux ur st st2 m m' h h2
  subst hm'
  refine ⟨?_, ?_, fun h' => by subst h'; rfl, fun h' => by subst h'; rfl,
    fun h' => by subst h'; rfl, fun h' => by subst h'; rfl,
    fun h' => by subst h'; rfl, fun h' => by subst h'; rfl⟩
  · cases ue with
    | none => exact fun hs => hs
    | some e => exact fun _ => rfl
  · cases ux with
    | none => exact fun hs => hs
    | some x => exact fun _ => rfl

/-- Witness for C10: a record with emotion and context set, updated with
every argument omitted, keeps every field. -/
theorem update_cannot_clear_optional_witness :
    (memoEmo.emotion.isSome → ({ memoEmo with updated_at := "t2" } : Memo).emotion.isSome) ∧
    (memoEmo.context.isSome → ({ memoEmo with updated_at := "t2" } : Memo).context.isSome) ∧
    ((none : Option String) = none →
      ({ memoEmo with updated_at := "t2" } : Memo).emotion = memoEmo.emotion) ∧
    ((none : Option String) = none →
      ({ memoEmo with updated_at := "t2" } : Memo).context = memoEmo.context) ∧
    ((none : Option (List String)) = none →
      ({ memoEmo with updated_at := "t2" } : Memo).tags = memoEmo.tags) ∧
    ((none : Option (List String)) = none →
      ({ memoEmo with updated_at := "t2" } : Memo).related_to = memoEmo.related_to) ∧
    ((none : Option String) = none →
      ({ memoEmo with updated_at := "t2" } : Memo).content = memoEmo.content) ∧
    ((none : Option Int) = none →
      ({ memoEmo with updated_at := "t2" } : Memo).importance = memoEmo.importance) :=
  update_cannot_clear_optional "t2" "e1" none none none none none none [memoEmo]
    [{ memoEmo with updated_at := "t2" }] memoEmo { memoEmo with updated_at := "t2" }
    (by decide) rfl

/-- C6: evaluating the create path at a failing input.  One `create_memo`
call reads the clock twice — `created_at` from the first
`_get_current_timestamp()` call and `updated_at` from the second (crud.py
lines 115 and 116) — and at microsecond resolution the two isoformat strings
differ essentially always, so the created record has distinct timestamps;
every other conjunct of the claim (trimmed content, given importance,
non-empty generated id, getById roundtrip on the saved collection) holds. -/
theorem create_timestamps_differ :
    ∃ memo st2,
      createMemo 0 "2026-10-12T09:00:00.000001+00:00" "2026-10-12T09:00:00.000002+00:00"
          " hello " none 3 none none none [] = .ok (memo, st2) ∧
      getMemoById memo.id st2 = some memo ∧
      memo.content = pyStrip " hello " ∧ memo.importance = 3 ∧ memo.id ≠ "" ∧
      memo.created_at ≠ memo.updated_at := by
  refine ⟨{ id := generateId 0, content := pyStrip " hello ", tags := [],
            created_at := "2026-10-12T09:00:00.000001+00:00",
            updated_at := "2026-10-12T09:00:00.000002+00:00", importance := 3,
            emotion := none, related_to := [], context := none },
    [{ id := generateId 0, content := pyStrip " hello ", tags := [],
       created_at := "2026-10-12T09:00:00.000001+00:00",
       updated_at := "2026-10-12T09:00:00.000002+00:00", importance := 3,
       emotion := none, related_to := [], context := none }], rfl, rfl, rfl, rfl,
    generateId_ne_empty 0, by decide⟩

/-- C9 counterexample: backing content that exists but is not valid UTF-8
fails to parse with `UnicodeDecodeError`, a class the except clause of
`_load_memos` does not name, so the load propagates the error to the caller
instead of returning the empty collection. -/
theorem load_unicode_error_surfaces :
    loadMemos (Except.error LoadError.unicodeDecodeError) =
      Except.error LoadError.unicodeDecodeError ∧
    loadMemos (Except.error LoadError.unicodeDecodeError) ≠ Except.ok [] := by
  refine ⟨rfl, ?_⟩
  simp [loadMemos]

/-- C9 amended: a parse failure of one of the two caught classes — a JSON
decode error on existing content, or a missing file — makes the load return
the empty collection, and a successfully parsed collection is returned as
is; but a `UnicodeDecodeError` raised on existing non-UTF-8 content escapes
the except clause and propagates to the caller, so only JSON-level
corruption is silently recovered. -/
theorem load_error_handling :
    loadMemos (Except.error LoadError.jsonDecodeError) = Except.ok [] ∧
    loadMemos (Except.error LoadError.fileNotFoundError) = Except.ok [] ∧
    loadMemos (Except.error LoadError.unicodeDecodeError) =
      Except.error LoadError.unicodeDecodeError ∧
    ∀ memos : List Memo, loadMemos (Except.ok memos) = Except.ok memos :=
  ⟨rfl, rfl, rfl, fun _ => rfl⟩

/-! Lemmas about the stable descending sort. -/

theorem sortByImportanceDesc_perm (l : List Memo) : List.Perm (sortByImportanceDesc l) l :=
  List.perm_insertionSort impGE l

theorem sortByImportanceDesc_sorted (l : List Memo) :
    List.Sorted impGE (sortByImportanceDesc l) :=
  List.sorted_insertionSort impGE l

/-- Inserting a record in front of every record of no larger importance
keeps each equal-importance slice of the list intact. -/
theorem orderedInsert_filter_imp (k : Int) (a : Memo) :
    ∀ l : List Memo, (l.orderedInsert impGE a).filter (fun m => decide (m.importance = k)) =
      (a :: l).filter (fun m => decide (m.importance = k))
  | [] => rfl
  | b :: l => by
    by_cases hr : impGE a b
    · rw [List.orderedInsert, if_pos hr]
    · rw [List.orderedInsert, if_neg hr]
      by_cases hb : b.importance = k
      · have ha : ¬a.importance = k := by
          intro hak
          exact hr (by unfold impGE; rw [hb, hak])
        simp [List.filter_cons, hb, ha, orderedInsert_filter_imp k a l]
      · by_cases ha : a.importance = k
        · simp [List.filter_cons, hb, ha, orderedInsert_filter_imp k a l]
        · simp [List.filter_cons, hb, ha, orderedInsert_filter_imp k a l]

/-- Stability of the sort: for each importance value, the records holding it
appear in the sorted output in their original relative order. -/
theorem sortByImportanceDesc_filter (k : Int) :
    ∀ l : List Memo, (sortByImportanceDesc l).filter (fun m => decide (m.importance = k)) =
      l.filter (fun m => decide (m.importance = k))
  | [] => rfl
  | a :: l => by
    show ((sortByImportanceDesc l).orderedInsert impGE a).filter _ = _
    rw [orderedInsert_filter_imp k a (sortByImportanceDesc l), List.filter_cons,
      List.filter_cons, sortByImportanceDesc_filter k l]

/-- C5 amended: a blank query searches to the empty sequence; otherwise the
result is the set of records matching the query (each collected at most
once), sorted by importance descending with the original relative order kept
among records of equal importance, truncated by the Python slice whenever a
nonzero limit is supplied — a positive limit keeps that many records from
the front, a negative one drops that many from the back, and only an absent
or zero limit leaves the list untruncated. -/
theorem search_memos_spec (q : String) (limit : Option Int) (memos : List Memo) :
    (pyStrip q = "" → searchMemos q limit memos = []) ∧
    (pyStrip q ≠ "" →
      ∃ ms : List Memo,
        List.Perm ms (memos.filter (memoMatches (strLower (pyStrip q)))) ∧
        List.Sorted impGE ms ∧
        (∀ k : Int, ms.filter (fun m => decide (m.importance = k)) =
          (memos.filter (memoMatches (strLower (pyStrip q)))).filter
            (fun m => decide (m.importance = k))) ∧
        searchMemos q limit memos =
          (match limit with
           | none => ms
           | some n => if n = 0 then ms else pySliceTo n ms)) := by
  constructor
  · intro hq; unfold searchMemos; rw [if_pos hq]
  · intro hq
    refine ⟨sortByImportanceDesc (memos.filter (memoMatches (strLower (pyStrip q)))),
      sortByImportanceDesc_perm _, sortByImportanceDesc_sorted _,
      fun k => sortByImportanceDesc_filter k _, ?_⟩
    unfold searchMemos
    rw [if_neg hq]

/-- Witness for C5 at the example of the specification: three matching
records of importances 5, 3, 3 searched with limit 2. -/
theorem search_memos_spec_witness :
    ∃ ms : List Memo,
      List.Perm ms (([memoImp5, memoImp3a, memoImp3b]).filter (memoMatches (strLower (pyStrip "abc")))) ∧
      List.Sorted impGE ms ∧
      (∀ k : Int, ms.filter (fun m => decide (m.importance = k)) =
        (([memoImp5, memoImp3a, memoImp3b]).filter
          (memoMatches (strLower (pyStrip "abc")))).filter
            (fun m => decide (m.importance = k))) ∧
      searchMemos "abc" (some 2) [memoImp5, memoImp3a, memoImp3b] =
        (match (some 2 : Option Int) with
         | none => ms
         | some n => if n = 0 then ms else pySliceTo n ms) :=
  (search_memos_spec "abc" (some 2) [memoImp5, memoImp3a, memoImp3b]).2 (by decide)

/-- C5 counterexample: a negative limit still truncates (the Python slice
drops records from the back), so with one matching record and limit -1 the
search returns nothing, although the original claim promises the untruncated
match list for every non-positive limit. -/
theorem search_negative_limit_counterexample :
    memoMatches (strLower (pyStrip "abc")) memoAbc = true ∧
    ([memoAbc]).filter (memoMatches (strLower (pyStrip "abc"))) = [memoAbc] ∧
    searchMemos "abc" (some (-1)) [memoAbc] = [] := by
  refine ⟨rfl, rfl, rfl⟩

/-- C8: filtering by an empty tag list is empty; otherwise exactly the
records whose tag list meets the given one (overlap on any element, OR
semantics) are returned, sorted by importance descending. -/
theorem filter_by_tags_spec (tags : List String) (memos : List Memo) :
    (tags = [] → getMemosByTags tags memos = []) ∧
    List.Perm (getMemosByTags tags memos)
      (memos.filter (fun m => tags.any (fun t => m.tags.contains t))) ∧
    List.Sorted impGE (getMemosByTags tags memos) := by
  refine ⟨fun h => by subst h; rfl, ?_, ?_⟩
  · unfold getMemosByTags
    by_cases ht : tags.isEmpty
    · rw [if_pos ht]
      have htn : tags = [] := by simpa using ht
      subst htn
      simp
    · rw [if_neg ht]
      exact sortByImportanceDesc_perm _
  · unfold getMemosByTags
    by_cases ht : tags.isEmpty
    · rw [if_pos ht]; exact List.sorted_nil
    · rw [if_neg ht]; exact sortByImportanceDesc_sorted _

/-- Witness for C8: the empty tag list on a nonempty collection, and the
single tag x against a record carrying it among others. -/
theorem filter_by_tags_spec_witness :
    getMemosByTags [] [memoAbc] = [] ∧
    List.Perm (getMemosByTags ["x"] [memoTagX])
      (([memoTagX]).filter (fun m => (["x"]).any (fun t => m.tags.contains t))) :=
  ⟨(filter_by_tags_spec [] [memoAbc]).1 rfl, (filter_by_tags_spec ["x"] [memoTagX]).2.1⟩

/-! Lemmas for the delete path. -/

theorem findMemoIdx_cons (X : String) (m : Memo) (rest : List Memo) :
    findMemoIdx X (m :: rest) =
      if m.id = X then some 0 else (findMemoIdx X rest).map (· + 1) := rfl

theorem stripRef_id (now X : String) (m : Memo) : (stripRef now X m).id = m.id := by
  unfold stripRef; split <;> rfl

theorem mem_filter_map_stripRef_ne (now X : String) (l : List Memo) :
    ∀ m' ∈ (l.filter (fun m => decide (m.id ≠ X))).map (stripRef now X), m'.id ≠ X := by
  intro m' hm'
  obtain ⟨m, hm, rfl⟩ := List.mem_map.mp hm'
  rw [stripRef_id]
  exact of_decide_eq_true (List.mem_filter.mp hm).2

theorem filter_ne_of_all (X : String) (l : List Memo) (h : ∀ m ∈ l, m.id ≠ X) :
    l.filter (fun m => decide (m.id ≠ X)) = l :=
  List.filter_eq_self.mpr (fun m hm => decide_eq_true (h m hm))

theorem deleteMemo_cons_hit (now X : String) (m : Memo) (rest : List Memo) (h : m.id = X) :
    deleteMemo now X (m :: rest) = (true, removeRelatedReferences now X rest) := by
  unfold deleteMemo
  rw [findMemoIdx_cons, if_pos h]
  rfl

theorem deleteMemo_cons_miss_found (now X : String) (m : Memo) (rest : List Memo)
    (h : ¬m.id = X) (j : Nat) (hf : findMemoIdx X rest = some j) :
    deleteMemo now X (m :: rest) =
      (true, stripRef now X m :: (removeRelatedReferences now X rest).eraseIdx j) := by
  unfold deleteMemo
  rw [findMemoIdx_cons, if_neg h, hf]
  rfl

/-- C1 amended: deleting a stored id succeeds, removes the record itself,
and from every other record removes the first occurrence of the id from its
related_to (refreshing updated_at exactly on the records so rewritten): the
saved collection is the original minus the target, each survivor passed
through that reference rewrite.  When no record lists the id more than once
this removes every dangling reference; a duplicated occurrence beyond the
first survives. -/
theorem delete_memo_cleanup (now X : String) :
    ∀ memos : List Memo, (memos.map Memo.id).Nodup → X ∈ memos.map Memo.id →
      (deleteMemo now X memos).1 = true ∧
      (deleteMemo now X memos).2 =
        (memos.filter (fun m => decide (m.id ≠ X))).map (stripRef now X) ∧
      ∀ m' ∈ (deleteMemo now X memos).2, m'.id ≠ X
  | [], _, hx => by simp at hx
  | m :: rest, hu, hx => by
    rw [List.map_cons] at hu hx
    obtain ⟨hm_notin, hu'⟩ := List.nodup_cons.mp hu
    by_cases h0 : m.id = X
    · have hrest : ∀ m2 ∈ rest, m2.id ≠ X := by
        intro m2 hm2 hcon
        exact hm_notin (h0.trans hcon.symm ▸ List.mem_map_of_mem Memo.id hm2)
      have h2 : removeRelatedReferences now X rest =
          ((m :: rest).filter (fun m2 => decide (m2.id ≠ X))).map (stripRef now X) := by
        have hcons : (m :: rest).filter (fun m2 => decide (m2.id ≠ X)) = rest := by
          rw [List.filter_cons, if_neg (by simp [h0]), filter_ne_of_all X rest hrest]
        rw [hcons]
        rfl
      rw [deleteMemo_cons_hit now X m rest h0]
      exact ⟨rfl, h2, fun m' hm' =>
        mem_filter_map_stripRef_ne now X (m :: rest) m' (h2 ▸ hm')⟩
    · have hx' : X ∈ rest.map Memo.id := by
        rcases List.mem_cons.mp hx with h | h
        · exact absurd h.symm h0
        · exact h
      obtain ⟨ih1, ih2, ih3⟩ := delete_memo_cleanup now X rest hu' hx'
      cases hf : findMemoIdx X rest with
      | none =>
        exfalso
        have hfalse : (deleteMemo now X rest).1 = false := by unfold deleteMemo; rw [hf]
        rw [ih1] at hfalse
        exact Bool.noConfusion hfalse
      | some j =>
        have hdr : deleteMemo now X rest =
            (true, (removeRelatedReferences now X rest).eraseIdx j) := by
          unfold deleteMemo; rw [hf]
        have ih2' : (removeRelatedReferences now X rest).eraseIdx j =
            (rest.filter (fun m2 => decide (m2.id ≠ X))).map (stripRef now X) := by
          rw [hdr] at ih2
          exact ih2
        rw [deleteMemo_cons_miss_found now X m rest h0 j hf]
        refine ⟨rfl, ?_, ?_⟩
        · show stripRef now X m :: (removeRelatedReferences now X rest).eraseIdx j =
            ((m :: rest).filter (fun m2 => decide (m2.id ≠ X))).map (stripRef now X)
          rw [ih2', List.filter_cons, if_pos (decide_eq_true h0), List.map_cons]
        · intro m' hm'
          have hm2 : m' ∈ stripRef now X m ::
              (removeRelatedReferences now X rest).eraseIdx j := hm'
          rcases List.mem_cons.mp hm2 with h | h
          · subst h; rw [stripRef_id]; exact h0
          · exact mem_filter_map_stripRef_ne now X rest m' (ih2' ▸ h)

/-- Witness for C1 at a two-record collection: deleting b rewrites the
reference in the surviving record and drops the target. -/
theorem delete_memo_cleanup_witness :
    (deleteMemo "t1" "b" [memoA1, memoB]).1 = true ∧
    (deleteMemo "t1" "b" [memoA1, memoB]).2 =
      (([memoA1, memoB]).filter (fun m => decide (m.id ≠ "b"))).map (stripRef "t1" "b") ∧
    ∀ m' ∈ (deleteMemo "t1" "b" [memoA1, memoB]).2, m'.id ≠ "b" :=
  delete_memo_cleanup "t1" "b" [memoA1, memoB] (by decide) (by decide)

/-- C1 counterexample: the record listing the deleted id twice keeps one
dangling occurrence, because `list.remove` drops only the first; the delete
still reports success. -/
theorem delete_memo_duplicate_counterexample :
    (deleteMemo "t1" "b" [memoA2, memoB]).1 = true ∧
    (deleteMemo "t1" "b" [memoA2, memoB]).2.any (fun m => m.related_to.contains "b") = true := by
  exact ⟨rfl, rfl⟩

/-- C7 counterexample: on the empty collection the stats dictionary carries
no distinct-tags entry at all, rather than an empty list. -/
theorem stats_empty_missing_unique_tags :
    (getMemoStats []).unique_tags = none ∧ (getMemoStats []).unique_tags ≠ some [] := by
  exact ⟨rfl, by decide⟩

/-- C7 amended: on the empty collection the stats call returns without
failing, with zero counts, empty context and emotion lists and an empty
histogram, but with the distinct-tags entry absent from the result rather
than present as an empty list. -/
theorem stats_empty_collection :
    getMemoStats [] =
      { total_count := 0, tags_count := 0, unique_tags := none, contexts := [],
        emotions := [], importance_distribution := [] } := rfl

end MemoServer
